import Mathlib

/-!
Shallow embedding of the game-simulation engine of the Footballsimulator
repository (`src/components/simulation.ts`).

Modelling conventions:
* JavaScript finite floating-point numbers are modelled as rationals (`ℚ`);
  scores and drive points, which the code only ever builds from the integer
  literals 0/3/7 and `Math.round`/`Math.max(0, ·)` results, are modelled as `ℤ`.
* The special JS values `NaN`, `+Infinity`, `-Infinity` matter only for the
  `seed` configuration field, where the code branches on them; the type `JSNum`
  captures exactly that distinction.
* `Math.random` (the non-seeded source) is modelled as an ambient stream
  `sys : ℕ → ℚ` supplied by the caller; the seeded LCG is a concrete stream.
  RNG consumption is made observable by threading an index into the stream;
  a call that starts at index `i` and ends at index `j` consumed `j - i`
  values, and thrown validation errors record the index at the throw site.
* `throw new Error msg` is modelled with `Except` (`SimError.invalidInput`).
* The Box–Muller `while (u === 0) u = rng();` loops of `randomGaussian` can
  diverge on a stream that is eventually all zeros, so the resampling is given
  explicit fuel (`SimError.rngFuel` marks exhaustion); no claim depends on the
  exhaustion path.
* The transcendental float operations `Math.sqrt`, `Math.log`, `Math.cos` and
  the constant `Math.PI` used inside `randomGaussian` have no exact rational
  counterpart; they are abstracted as an explicit parameter record `RealOps`.
  Every claim treated here is independent of the concrete values of these
  functions, and all theorems quantify over them.
-/

deriving instance DecidableEq for Except

namespace FootballSim

/-- JavaScript number as far as the `seed` handling is concerned: a finite
value (modelled as `ℚ`), `NaN`, `+Infinity` or `-Infinity`. -/
inductive JSNum where
  | finite (q : ℚ)
  | nan
  | posInf
  | negInf
  deriving DecidableEq, Repr

/-- JS remainder `a % n` for integers: truncated division remainder, sign of
the dividend (`n` is the positive modulus in all uses here). -/
def jsMod (a n : ℤ) : ℤ :=
  if 0 ≤ a then a % n else -((-a) % n)

/-- The error taxonomy of the model. `invalidInput msg idx` embeds
`throw new Error(msg)` raised when `idx` RNG values had been consumed since
the start of the call (index into the stream at the throw site). `rngFuel`
is fuel exhaustion of the Box–Muller resampling loops (a real divergence of
the JS code on a stream that is eventually all zero). `nanSeed` marks the one
spot the rational model cannot follow the float code: a seed of `±Infinity`
builds a generator whose state is `NaN` and which returns `NaN` forever. -/
inductive SimError where
  | invalidInput (msg : String) (idx : ℕ)
  | rngFuel
  | nanSeed
  deriving DecidableEq, Repr

/-- Lines 49–51 / 286–288: `clamp(value, min, max) = Math.min(Math.max(value, min), max)`. -/
def clamp (value lo hi : ℚ) : ℚ :=
  min (max value lo) hi

/-- Initial LCG state, lines 58–61 (and 295–298):
`let state = Math.floor(seed) % 2147483647; if (state <= 0) state += 2147483646;`. -/
def lcgInit (seed : ℚ) : ℤ :=
  let state := jsMod seed.floor 2147483647
  if state ≤ 0 then state + 2147483646 else state

/-- State update, line 64 (and 301): `state = (state * 16807) % 2147483647`.
All reachable states are nonnegative, where JS `%` agrees with `Int.emod`. -/
def lcgNext (s : ℤ) : ℤ :=
  (s * 16807) % 2147483647

/-- Value returned from a state, line 65 (and 302): `(state - 1) / 2147483646`.
Written with `mkRat` (exact integer-over-integer division) so that the
definition evaluates inside the kernel; `Rat.mkRat_eq_div` recovers the
division form. -/
def lcgValue (s : ℤ) : ℚ :=
  mkRat (s - 1) 2147483646

/-- State after `n` update steps from initial state `s0`. -/
def lcgState (s0 : ℤ) : ℕ → ℤ
  | 0 => s0
  | n + 1 => lcgNext (lcgState s0 n)

/-- The stream of values produced by the seeded generator: the `n`-th call
updates the state a further time and returns the value of the new state. -/
def lcgStream (s0 : ℤ) (n : ℕ) : ℚ :=
  lcgValue (lcgState s0 (n + 1))

/-- Result of `createRandomGenerator`: either the platform source
(`Math.random`), the seeded LCG, or — for a seed of `±Infinity`, which passes
the `typeof seed !== "number" || Number.isNaN(seed)` test — a generator whose
state is `NaN` and which returns `NaN` on every call. -/
inductive RandomSource where
  | system
  | lcg (s0 : ℤ)
  | nanStream
  deriving DecidableEq, Repr

/-- Lines 53–67 (and 290–304), `createRandomGenerator(seed?)`: returns
`Math.random` iff `seed` is not a number (absent) or is `NaN`; otherwise it
seeds the LCG. A `±Infinity` seed takes the seeded branch and yields the
`NaN`-valued generator (`Math.floor(±∞) % 2147483647` is `NaN`). -/
def createRandomGenerator (seed : Option JSNum) : RandomSource :=
  match seed with
  | none => .system
  | some .nan => .system
  | some .posInf => .nanStream
  | some .negInf => .nanStream
  | some (.finite q) => .lcg (lcgInit q)

/-- The uniform stream a `RandomSource` stands for, given the ambient
platform stream `sys` (the model of `Math.random`). The `NaN`-valued
generator has no rational-valued stream, hence `none`. -/
def RandomSource.resolve : RandomSource → (ℕ → ℚ) → Option (ℕ → ℚ)
  | .system, sys => some sys
  | .lcg s0, _ => some (lcgStream s0)
  | .nanStream, _ => none

example : createRandomGenerator (some (.finite 42)) = .lcg 42 := by decide
example : lcgStream (lcgInit 42) 0 = mkRat (42 * 16807 - 1) 2147483646 := by decide
example : (0 : ℚ) ≤ lcgStream (lcgInit 42) 0 ∧ lcgStream (lcgInit 42) 0 < 1 := by decide
example : lcgInit (-2147483646) = 0 := by decide

/-- Ceiling of a rational, written with `Rat.floor` so it evaluates in the
kernel. A JS loop `for (let i = 0; i < d; i += 1)` whose bound `d` is a
(finite) number executes `max 0 ⌈d⌉` iterations, which is `(jsCeil d).toNat`. -/
def jsCeil (q : ℚ) : ℤ :=
  -((-q).floor)

/-- JS `Math.round`: round half toward positive infinity. -/
def jsRound (q : ℚ) : ℤ :=
  (q + 1/2).floor

/-! ## Drive Engine (lines 235–412) -/

/-- Lines 235–238 (second `TeamStats` interface): average points scored /
allowed per drive. -/
structure DriveTeamStats where
  offPtsDrive : ℚ
  defPtsDrive : ℚ
  deriving DecidableEq, Repr

/-- Lines 240–244, `enum DriveResult`. -/
inductive DriveResult where
  | TD
  | FG
  | NONE
  deriving DecidableEq, Repr

/-- Lines 246–249, `DriveOutcome`. -/
structure DriveOutcome where
  result : DriveResult
  points : ℤ
  deriving DecidableEq, Repr

/-- Lines 251–256, `SimulationSummary`. -/
structure SimulationSummary where
  homeTDs : ℕ
  homeFGs : ℕ
  awayTDs : ℕ
  awayFGs : ℕ
  deriving DecidableEq, Repr

/-- Lines 258–264 (second `SimulationResult` interface). -/
structure DriveSimResult where
  homeScore : ℤ
  awayScore : ℤ
  homeDrives : List DriveOutcome
  awayDrives : List DriveOutcome
  summary : SimulationSummary
  deriving DecidableEq, Repr

/-- Lines 266–269, `OvertimeConfig`. A non-finite `maxRounds` (`Infinity`)
would make the JS overtime loop unbounded (it can diverge when neither team
ever scores); only finite values are modelled. -/
structure OvertimeConfig where
  enabled : Bool
  maxRounds : Option ℚ
  deriving DecidableEq, Repr

/-- Lines 271–276 (second `GameConfig` interface). -/
structure DriveGameConfig where
  drivesPerTeam : Option ℚ := none
  allowTies : Option Bool := none
  overtime : Option OvertimeConfig := none
  seed : Option JSNum := none
  deriving DecidableEq, Repr

/-- Lines 323–331 of `simulateDrive`: both efficiencies are clamped to
`[MIN_POINTS_PER_DRIVE, MAX_POINTS_PER_DRIVE] = [0.2, 4.0]` and the scoring
probability is `clamp(0.4 * offense / defense, 0, 0.85)`. Decimal float
literals are written as the equal rationals `1/5`, `4`, `2/5`, `17/20`. -/
def scoringProbability (offensePtsDrive defensePtsDrive : ℚ) : ℚ :=
  let offense := clamp offensePtsDrive (1/5) 4
  let defense := clamp defensePtsDrive (1/5) 4
  clamp ((2/5) * (offense / defense)) 0 (17/20)

/-- Lines 315–340, `simulateDrive(offensePtsDrive, defensePtsDrive, rng)`.
`validatePointsPerDrive` (lines 306–310) throws when `!(value > 0)`; over the
rationals this is exactly `value ≤ 0`. One uniform value is drawn always, a
second one only on the scoring branch. -/
def simulateDrive (offensePtsDrive defensePtsDrive : ℚ) (s : ℕ → ℚ) (i : ℕ) :
    Except SimError (DriveOutcome × ℕ) :=
  if ¬ 0 < offensePtsDrive then
    .error (.invalidInput "offensePtsDrive must be greater than 0" i)
  else if ¬ 0 < defensePtsDrive then
    .error (.invalidInput "defensePtsDrive must be greater than 0" i)
  else
    if s i < scoringProbability offensePtsDrive defensePtsDrive then
      if s (i + 1) < 3/4 then .ok (⟨.TD, 7⟩, i + 2)
      else .ok (⟨.FG, 3⟩, i + 2)
    else .ok (⟨.NONE, 0⟩, i + 1)

/-- Which team a drive outcome is recorded for. -/
inductive TeamSide where
  | home
  | away
  deriving DecidableEq, Repr

/-- The mutable locals of `simulateGame` (Drive variant, lines 359–370),
plus the RNG stream index. -/
structure DriveState where
  homeScore : ℤ
  awayScore : ℤ
  homeDrives : List DriveOutcome
  awayDrives : List DriveOutcome
  summary : SimulationSummary
  idx : ℕ
  deriving DecidableEq, Repr

/-- Lines 372–384, `recordOutcome(team, outcome)`: append the outcome, add its
points to the team's score and bump the TD/FG counters. -/
def recordOutcome (st : DriveState) (team : TeamSide) (o : DriveOutcome) : DriveState :=
  match team with
  | .home =>
      { st with
        homeDrives := st.homeDrives ++ [o]
        homeScore := st.homeScore + o.points
        summary :=
          { st.summary with
            homeTDs := st.summary.homeTDs + (if o.result = .TD then 1 else 0)
            homeFGs := st.summary.homeFGs + (if o.result = .FG then 1 else 0) } }
  | .away =>
      { st with
        awayDrives := st.awayDrives ++ [o]
        awayScore := st.awayScore + o.points
        summary :=
          { st.summary with
            awayTDs := st.summary.awayTDs + (if o.result = .TD then 1 else 0)
            awayFGs := st.summary.awayFGs + (if o.result = .FG then 1 else 0) } }

/-- One home-then-away drive pair (the body of both the regulation loop,
lines 386–389, and the overtime loop, lines 400–402). -/
def driveRound (home away : DriveTeamStats) (s : ℕ → ℚ) (st : DriveState) :
    Except SimError DriveState :=
  match simulateDrive home.offPtsDrive away.defPtsDrive s st.idx with
  | .error e => .error e
  | .ok (o₁, i₁) =>
      let st₁ := recordOutcome { st with idx := i₁ } .home o₁
      match simulateDrive away.offPtsDrive home.defPtsDrive s st₁.idx with
      | .error e => .error e
      | .ok (o₂, i₂) => .ok (recordOutcome { st₁ with idx := i₂ } .away o₂)

/-- Regulation loop, lines 386–389: `drivesPerTeam` rounds of
home-then-away drives (`n` is the remaining iteration count). -/
def driveLoop (home away : DriveTeamStats) (s : ℕ → ℚ) :
    ℕ → DriveState → Except SimError DriveState
  | 0, st => .ok st
  | n + 1, st =>
      match driveRound home away s st with
      | .error e => .error e
      | .ok st' => driveLoop home away s n st'

/-- Overtime loop, lines 395–403: while tied and below the round cap, play
one more home-then-away round. `n` is the remaining round budget
(`(jsCeil maxOvertimeRounds).toNat` initially, since the loop breaks as soon
as `roundsPlayed >= maxOvertimeRounds`); the returned `ℕ` is `roundsPlayed`
added to the accumulator. -/
def driveOtLoop (home away : DriveTeamStats) (s : ℕ → ℚ) :
    ℕ → DriveState → ℕ → Except SimError (DriveState × ℕ)
  | 0, st, rounds => .ok (st, rounds)
  | n + 1, st, rounds =>
      if st.homeScore = st.awayScore then
        match driveRound home away s st with
        | .error e => .error e
        | .ok st' => driveOtLoop home away s n st' (rounds + 1)
      else .ok (st, rounds)

/-- Lines 345–412, `simulateGame` (Drive variant) given an already-resolved
uniform stream `s`. Returns the result together with the total number of RNG
values consumed (the final stream index; the call starts at index 0). -/
def driveSimulateGameCore (home away : DriveTeamStats) (cfg : DriveGameConfig)
    (s : ℕ → ℚ) : Except SimError (DriveSimResult × ℕ) :=
  let drivesPerTeam := cfg.drivesPerTeam.getD 12
  let allowTies := cfg.allowTies.getD true
  if ¬ 0 < drivesPerTeam then
    .error (.invalidInput "drivesPerTeam must be greater than 0" 0)
  else
    match driveLoop home away s (jsCeil drivesPerTeam).toNat
        ⟨0, 0, [], [], ⟨0, 0, 0, 0⟩, 0⟩ with
    | .error e => .error e
    | .ok st₁ =>
        let overtimeEnabled := !allowTies && (cfg.overtime.map (·.enabled)).getD true
        let maxOvertimeRounds :=
          (cfg.overtime.bind (·.maxRounds)).getD (if overtimeEnabled then 6 else 0)
        let otCap := if overtimeEnabled then (jsCeil maxOvertimeRounds).toNat else 0
        match driveOtLoop home away s otCap st₁ 0 with
        | .error e => .error e
        | .ok (st₂, _) =>
            .ok (⟨st₂.homeScore, st₂.awayScore, st₂.homeDrives, st₂.awayDrives,
                  st₂.summary⟩, st₂.idx)

/-- The full Drive-variant `simulateGame`: first `createRandomGenerator`
resolves the seed (line 350), then the game runs on the resulting stream.
`sys` is the ambient platform stream standing for `Math.random`. -/
def driveSimulateGame (home away : DriveTeamStats) (cfg : DriveGameConfig)
    (sys : ℕ → ℚ) : Except SimError (DriveSimResult × ℕ) :=
  match (createRandomGenerator cfg.seed).resolve sys with
  | none => .error .nanSeed
  | some s => driveSimulateGameCore home away cfg s

/-! ## Projection Engine (lines 1–233) -/

/-- Lines 1–6 (first `TeamStats` interface). -/
structure ProjTeamStats where
  pointsPerGame : ℚ
  pointsAllowedPerGame : ℚ
  yardsPerPlay : ℚ
  turnoverRate : ℚ
  deriving DecidableEq, Repr

/-- Lines 8–15, `TeamSimulationDetail`. `finalPoints` is an integer
(`Math.max(0, Math.round(...))`), as are the per-round overtime points. -/
structure TeamSimulationDetail where
  expectedPoints : ℚ
  variation : ℚ
  turnoverPenalty : ℚ
  rawProjection : ℚ
  finalPoints : ℤ
  overtimePoints : List ℤ
  deriving DecidableEq, Repr

/-- The two tiebreak policies of lines 21 and 37. -/
inductive TiebreakPolicy where
  | expected
  | home
  deriving DecidableEq, Repr

/-- Lines 17–22, `OvertimeResult`; `tiebreakApplied = none` is the TS `null`. -/
structure OvertimeResult where
  rounds : ℕ
  homePoints : List ℤ
  awayPoints : List ℤ
  tiebreakApplied : Option TiebreakPolicy
  deriving DecidableEq, Repr

/-- Lines 24–30 (first `SimulationResult` interface); `overtime = none` models
the absent optional field. -/
structure ProjSimResult where
  homeScore : ℤ
  awayScore : ℤ
  homeDetail : TeamSimulationDetail
  awayDetail : TeamSimulationDetail
  overtime : Option OvertimeResult
  deriving DecidableEq, Repr

/-- Lines 32–38 (first `GameConfig` interface). -/
structure ProjGameConfig where
  seed : Option JSNum := none
  allowTies : Option Bool := none
  maxOtRounds : Option ℚ := none
  otScale : Option ℚ := none
  tiebreakPolicy : Option TiebreakPolicy := none
  deriving DecidableEq, Repr

/-- Abstract stand-ins for the transcendental float operations used by the
Box–Muller transform (lines 81–83): `Math.sqrt`, `Math.log`, `Math.cos` and
`Math.PI`. They have no exact rational counterpart, and every claim proved
here holds for arbitrary values of them, so all theorems quantify over this
record. -/
structure RealOps where
  sqrt : ℚ → ℚ
  log : ℚ → ℚ
  cos : ℚ → ℚ
  pi : ℚ

/-- The `while (u === 0) { u = rng(); }` resampling loops of lines 73–79:
draw values until a nonzero one appears, returning it and the next stream
index. `fuel` bounds the resampling (the JS loop diverges on a stream that
stays zero forever). -/
def drawNonzero (s : ℕ → ℚ) : ℕ → ℕ → Except SimError (ℚ × ℕ)
  | _, 0 => .error .rngFuel
  | i, fuel + 1 =>
      if s i = 0 then drawNonzero s (i + 1) fuel
      else .ok (s i, i + 1)

/-- Lines 69–85, `randomGaussian(rng, mean, stdDev)` (Box–Muller): two
nonzero uniforms `u`, `v`, then
`mean + sqrt(-2 ln u) * cos(2 pi v) * max(stdDev, 0)`. -/
def randomGaussian (R : RealOps) (s : ℕ → ℚ) (fuel : ℕ) (mean stdDev : ℚ)
    (i : ℕ) : Except SimError (ℚ × ℕ) :=
  match drawNonzero s i fuel with
  | .error e => .error e
  | .ok (u, i₁) =>
      match drawNonzero s i₁ fuel with
      | .error e => .error e
      | .ok (v, i₂) =>
          let magnitude := R.sqrt (-2 * R.log u)
          let angle := 2 * R.pi * v
          let standard := magnitude * R.cos angle
          .ok (mean + standard * max stdDev 0, i₂)

/-- Lines 99–124, `calculateTeamDetail(team, opponent, rng)`. The
`ensureNonNegative` / `ensurePositive` guards (lines 87–97) otherwise also
reject non-finite values, which do not exist in the rational model. All five
validations run before the Gaussian draw. -/
def calculateTeamDetail (R : RealOps) (s : ℕ → ℚ) (fuel : ℕ)
    (team opponent : ProjTeamStats) (i : ℕ) :
    Except SimError (TeamSimulationDetail × ℕ) :=
  if team.pointsPerGame < 0 then
    .error (.invalidInput "pointsPerGame debe ser un numero mayor o igual a 0." i)
  else if team.pointsAllowedPerGame < 0 then
    .error (.invalidInput "pointsAllowedPerGame debe ser un numero mayor o igual a 0." i)
  else if team.yardsPerPlay ≤ 0 then
    .error (.invalidInput "yardsPerPlay debe ser un numero mayor que 0." i)
  else if team.turnoverRate < 0 then
    .error (.invalidInput "turnoverRate debe ser un numero mayor o igual a 0." i)
  else if opponent.pointsAllowedPerGame < 0 then
    .error (.invalidInput "pointsAllowedPerGame debe ser un numero mayor o igual a 0." i)
  else
    let expected := (team.pointsPerGame + opponent.pointsAllowedPerGame) / 2
    match randomGaussian R s fuel 0 (max (1/10) (team.yardsPerPlay * (1/2))) i with
    | .error e => .error e
    | .ok (variation, i') =>
        let turnoverPenalty := team.turnoverRate * 2
        let rawProjection := expected + variation - turnoverPenalty
        let finalPoints := max 0 (jsRound rawProjection)
        .ok (⟨expected, variation, turnoverPenalty, rawProjection, finalPoints, []⟩, i')

/-- Lines 130–148, `simulateOtPoints(expectedReg, ypp, turnoverRate, scale, rng)`.
`TURNOVER_PENALTY_FACTOR_OT = 0.8`, `DEFAULT_OT_SCALE = 0.25`; the
`Number.isFinite(scale)` fallback cannot fire in the rational model. -/
def simulateOtPoints (R : RealOps) (s : ℕ → ℚ) (fuel : ℕ)
    (expectedReg ypp turnoverRate scale : ℚ) (i : ℕ) :
    Except SimError (ℤ × ℕ) :=
  if expectedReg < 0 then
    .error (.invalidInput "expectedReg debe ser un numero mayor o igual a 0." i)
  else if ypp ≤ 0 then
    .error (.invalidInput "ypp debe ser un numero mayor que 0." i)
  else if turnoverRate < 0 then
    .error (.invalidInput "turnoverRate debe ser un numero mayor o igual a 0." i)
  else
    let safeScale := clamp scale 0 1
    let expectedOT := clamp (expectedReg * safeScale) 0 12
    match randomGaussian R s fuel 0 (max (1/10) (ypp * (1/4))) i with
    | .error e => .error e
    | .ok (variation, i') =>
        let penalty := turnoverRate * (4/5)
        .ok (max 0 (jsRound (expectedOT + variation - penalty)), i')

/-- The mutable overtime locals of `simulateGame` (Projection variant,
lines 170–173), plus the stream index. -/
structure ProjOtState where
  homeScore : ℤ
  awayScore : ℤ
  otHome : List ℤ
  otAway : List ℤ
  rounds : ℕ
  idx : ℕ
  deriving DecidableEq, Repr

/-- Overtime loop, lines 177–198: while tied and below the round cap, draw
one OT-points value per team (home first) and accumulate. `n` is the
remaining round budget (`maxOtRounds - rounds` initially). -/
def projOtLoop (R : RealOps) (s : ℕ → ℚ) (fuel : ℕ) (home away : ProjTeamStats)
    (hExp aExp otScale : ℚ) : ℕ → ProjOtState → Except SimError ProjOtState
  | 0, st => .ok st
  | n + 1, st =>
      if st.homeScore = st.awayScore then
        match simulateOtPoints R s fuel hExp home.yardsPerPlay home.turnoverRate
            otScale st.idx with
        | .error e => .error e
        | .ok (homeOt, i₁) =>
            match simulateOtPoints R s fuel aExp away.yardsPerPlay
                away.turnoverRate otScale i₁ with
            | .error e => .error e
            | .ok (awayOt, i₂) =>
                projOtLoop R s fuel home away hExp aExp otScale n
                  ⟨st.homeScore + homeOt, st.awayScore + awayOt,
                   st.otHome ++ [homeOt], st.otAway ++ [awayOt],
                   st.rounds + 1, i₂⟩
      else .ok st

/-- Lines 200–213: when still tied after the overtime loop, the tiebreak
policy awards one extra point — `expected` gives it to the team with strictly
higher `expectedPoints` (home when equal), `home` always to home. -/
def applyTiebreak (policy : TiebreakPolicy) (hExp aExp : ℚ) (h a : ℤ) : ℤ × ℤ :=
  match policy with
  | .expected =>
      if hExp > aExp then (h + 1, a)
      else if aExp > hExp then (h, a + 1)
      else (h + 1, a)
  | .home => (h + 1, a)

/-- Everything `simulateGame` (Projection variant) computes before assembling
the `SimulationResult`: both details, the final scores, the overtime point
lists, `roundsPlayed` and `tiebreakApplied`. -/
structure ProjPhases where
  homeDetail : TeamSimulationDetail
  awayDetail : TeamSimulationDetail
  homeScore : ℤ
  awayScore : ℤ
  otHome : List ℤ
  otAway : List ℤ
  rounds : ℕ
  tiebreak : Option TiebreakPolicy
  idx : ℕ
  deriving DecidableEq, Repr

/-- Lines 150–214 of `simulateGame` (Projection variant) on an
already-resolved stream: defaults (`allowTies=false`, `maxOtRounds=3` floored
and clamped to ≥ 0, `otScale=0.25`, `tiebreakPolicy="expected"`), home detail
before away detail, then the overtime block. -/
def projPhasesCore (R : RealOps) (home away : ProjTeamStats)
    (cfg : ProjGameConfig) (s : ℕ → ℚ) (fuel : ℕ) : Except SimError ProjPhases :=
  let allowTies := cfg.allowTies.getD false
  let maxOtRounds : ℕ :=
    match cfg.maxOtRounds with
    | some q => (max 0 q.floor).toNat
    | none => 3
  let otScale := cfg.otScale.getD (1/4)
  let tiebreakPolicy := cfg.tiebreakPolicy.getD .expected
  match calculateTeamDetail R s fuel home away 0 with
  | .error e => .error e
  | .ok (homeDetail, i₁) =>
      match calculateTeamDetail R s fuel away home i₁ with
      | .error e => .error e
      | .ok (awayDetail, i₂) =>
          let st0 : ProjOtState :=
            ⟨homeDetail.finalPoints, awayDetail.finalPoints, [], [], 0, i₂⟩
          if allowTies = false ∧ st0.homeScore = st0.awayScore then
            match projOtLoop R s fuel home away homeDetail.expectedPoints
                awayDetail.expectedPoints otScale maxOtRounds st0 with
            | .error e => .error e
            | .ok st =>
                if st.homeScore = st.awayScore then
                  let scores := applyTiebreak tiebreakPolicy
                    homeDetail.expectedPoints awayDetail.expectedPoints
                    st.homeScore st.awayScore
                  .ok ⟨homeDetail, awayDetail, scores.1, scores.2,
                       st.otHome, st.otAway, st.rounds, some tiebreakPolicy, st.idx⟩
                else
                  .ok ⟨homeDetail, awayDetail, st.homeScore, st.awayScore,
                       st.otHome, st.otAway, st.rounds, none, st.idx⟩
          else
            .ok ⟨homeDetail, awayDetail, st0.homeScore, st0.awayScore,
                 [], [], 0, none, st0.idx⟩

/-- Lines 216–232: the returned `SimulationResult`. The details receive
copies of the overtime point lists, and the `overtime` field is populated
exactly when `roundsPlayed > 0 || tiebreakApplied !== null`. -/
def projAssemble (ph : ProjPhases) : ProjSimResult :=
  { homeScore := ph.homeScore
    awayScore := ph.awayScore
    homeDetail := { ph.homeDetail with overtimePoints := ph.otHome }
    awayDetail := { ph.awayDetail with overtimePoints := ph.otAway }
    overtime :=
      if 0 < ph.rounds ∨ ph.tiebreak ≠ none then
        some ⟨ph.rounds, ph.otHome, ph.otAway, ph.tiebreak⟩
      else none }

/-- The full Projection-variant `simulateGame`: resolve the seed (line 155),
run the phases, assemble the result; also returns the total number of RNG
values consumed. -/
def projSimulateGame (R : RealOps) (home away : ProjTeamStats)
    (cfg : ProjGameConfig) (sys : ℕ → ℚ) (fuel : ℕ) :
    Except SimError (ProjSimResult × ℕ) :=
  match (createRandomGenerator cfg.seed).resolve sys with
  | none => .error .nanSeed
  | some s =>
      match projPhasesCore R home away cfg s fuel with
      | .error e => .error e
      | .ok ph => .ok (projAssemble ph, ph.idx)

/-- Transcendental operations all returning 0 — a concrete `RealOps`
instantiation for witnesses. -/
def zeroOps : RealOps :=
  ⟨fun _ => 0, fun _ => 0, fun _ => 0, 0⟩

example :
    simulateDrive 1 1 (fun _ => 0) 0 = .ok (⟨.TD, 7⟩, 2) := by
  with_unfolding_all decide
example :
    driveSimulateGame ⟨1, 1⟩ ⟨-1, 1⟩ { drivesPerTeam := some 1 } (fun _ => 0) =
      .error (.invalidInput "offensePtsDrive must be greater than 0" 2) := by
  with_unfolding_all decide

/-! ## Lemmas about the seeded LCG -/

lemma prime_2147483647 : Nat.Prime 2147483647 := by
  have h : (mersenne 31).Prime := lucas_lehmer_sufficiency 31 (by norm_num) (by norm_num)
  have e : mersenne 31 = 2147483647 := by norm_num [mersenne]
  rw [e] at h
  exact h

lemma lcgInit_range (seed : ℚ) : 0 ≤ lcgInit seed ∧ lcgInit seed < 2147483647 := by
  have h1 := Int.emod_nonneg seed.floor (show (2147483647 : ℤ) ≠ 0 by norm_num)
  have h2 := Int.emod_lt_of_pos seed.floor (show (0 : ℤ) < 2147483647 by norm_num)
  have h3 := Int.emod_nonneg (-seed.floor) (show (2147483647 : ℤ) ≠ 0 by norm_num)
  have h4 := Int.emod_lt_of_pos (-seed.floor) (show (0 : ℤ) < 2147483647 by norm_num)
  unfold lcgInit jsMod
  dsimp only
  split_ifs <;> omega

lemma lcgNext_mem {s : ℤ} (h0 : 0 < s) (h1 : s < 2147483647) :
    0 < lcgNext s ∧ lcgNext s < 2147483647 := by
  unfold lcgNext
  have hnn : 0 ≤ s * 16807 % 2147483647 :=
    Int.emod_nonneg _ (show (2147483647 : ℤ) ≠ 0 by norm_num)
  have hlt : s * 16807 % 2147483647 < 2147483647 :=
    Int.emod_lt_of_pos _ (show (0 : ℤ) < 2147483647 by norm_num)
  have hne : s * 16807 % 2147483647 ≠ 0 := by
    intro hz
    have hdvd : (2147483647 : ℤ) ∣ s * 16807 := Int.dvd_of_emod_eq_zero hz
    have hp : Prime (2147483647 : ℤ) := by
      exact_mod_cast Nat.prime_iff_prime_int.mp prime_2147483647
    rcases hp.dvd_mul.mp hdvd with h | h
    · have := Int.le_of_dvd h0 h
      omega
    · have := Int.le_of_dvd (show (0 : ℤ) < 16807 by norm_num) h
      omega
  omega

lemma lcgState_mem {s0 : ℤ} (h0 : 0 < s0) (h1 : s0 < 2147483647) (n : ℕ) :
    0 < lcgState s0 n ∧ lcgState s0 n < 2147483647 := by
  induction n with
  | zero => exact ⟨h0, h1⟩
  | succ n ih => exact lcgNext_mem ih.1 ih.2

lemma lcgValue_mem {s : ℤ} (h0 : 0 < s) (h1 : s < 2147483647) :
    0 ≤ lcgValue s ∧ lcgValue s < 1 := by
  unfold lcgValue
  rw [Rat.mkRat_eq_div]
  constructor
  · apply div_nonneg
    · exact_mod_cast by omega
    · norm_num
  · rw [div_lt_one (by norm_num)]
    exact_mod_cast by omega

/-- Claim C5 as stated speaks of mapping the state into `(0, 2147483647)` by
adding the modulus when it is `≤ 0`. This definition follows those words of
the claim (it is NOT what the source does — the source adds `2147483646`). -/
def lcgInitSpec (seed : ℚ) : ℤ :=
  let state := jsMod seed.floor 2147483647
  if state ≤ 0 then state + 2147483647 else state

/-- C5 (counterexample): for seed `-2147483646` the code's initial state is
`0` — not in `(0, 2147483647)` and different from the claimed mapping, which
would give `1` — and the first value the generator returns is
`-1/2147483646 < 0`, outside `[0,1)`. -/
theorem C5_counterexample :
    lcgInit (-2147483646) = 0 ∧ lcgInitSpec (-2147483646) = 1 ∧
    lcgStream (lcgInit (-2147483646)) 0 < 0 := by decide

/-- C5 (amended): the initial state is `floor(seed) tmod 2147483647` plus
`2147483646` (not the modulus) when that is `≤ 0`, which lands in
`[0, 2147483647)`; the state update and output are as claimed; and whenever
the initial state is nonzero — i.e. unless `floor(seed) tmod 2147483647 =
-2147483646` — every value the generator ever returns lies in `[0, 1)`. -/
theorem C5_amended :
    (∀ seed : ℚ, 0 ≤ lcgInit seed ∧ lcgInit seed < 2147483647) ∧
    (∀ seed : ℚ, ∀ n : ℕ, lcgInit seed ≠ 0 →
      0 ≤ lcgStream (lcgInit seed) n ∧ lcgStream (lcgInit seed) n < 1) := by
  constructor
  · exact lcgInit_range
  · intro seed n hne
    have hr := lcgInit_range seed
    have hmem := @lcgState_mem (lcgInit seed) (by omega) hr.2 (n + 1)
    exact lcgValue_mem hmem.1 hmem.2

/-- Witness for C5 (amended) at seed 42, first output. -/
theorem C5_witness :
    0 ≤ lcgStream (lcgInit 42) 0 ∧ lcgStream (lcgInit 42) 0 < 1 :=
  C5_amended.2 42 0 (by decide)

/-- C6 (counterexample): a seed of `+Infinity` (or `-Infinity`) does NOT give
the platform's default random source: it passes the
`typeof seed !== "number" || Number.isNaN(seed)` test and takes the seeded
branch (whose state is then `NaN`). -/
theorem C6_counterexample :
    createRandomGenerator (some .posInf) ≠ .system ∧
    createRandomGenerator (some .negInf) ≠ .system := by decide

/-- C6 (amended): `createRandomGenerator` returns the platform's default
source exactly when the seed is absent (not a number) or `NaN`; `±Infinity`
seeds take the seeded branch. -/
theorem C6_amended (seed : Option JSNum) :
    createRandomGenerator seed = .system ↔ seed = none ∨ seed = some .nan := by
  cases seed with
  | none => simp [createRandomGenerator]
  | some j => cases j <;> simp [createRandomGenerator]

/-- C1: with a (finite) numeric seed `s`, `simulateGame` is a function of its
inputs alone — the result does not depend on the ambient platform random
source — so two calls with identical inputs and `seed = s` return identical
`SimulationResult` values (all scores, drive lists, detail fields and
overtime records equal), for both the Drive Engine and the Projection
Engine. -/
theorem C1_determinism (q : ℚ) (dHome dAway : DriveTeamStats)
    (dCfg : DriveGameConfig) (R : RealOps) (pHome pAway : ProjTeamStats)
    (pCfg : ProjGameConfig) (fuel : ℕ) (sys₁ sys₂ : ℕ → ℚ)
    (hd : dCfg.seed = some (.finite q)) (hp : pCfg.seed = some (.finite q)) :
    driveSimulateGame dHome dAway dCfg sys₁ =
      driveSimulateGame dHome dAway dCfg sys₂ ∧
    projSimulateGame R pHome pAway pCfg sys₁ fuel =
      projSimulateGame R pHome pAway pCfg sys₂ fuel := by
  unfold driveSimulateGame projSimulateGame
  rw [hd, hp]
  simp [createRandomGenerator, RandomSource.resolve]

/-- Witness for C1: two concrete seeded runs against different ambient
streams agree, in both engines. -/
theorem C1_witness :
    driveSimulateGame ⟨1, 1⟩ ⟨1, 1⟩ { seed := some (.finite 42) } (fun _ => 0) =
      driveSimulateGame ⟨1, 1⟩ ⟨1, 1⟩ { seed := some (.finite 42) } (fun _ => 1/2) ∧
    projSimulateGame zeroOps ⟨0, 0, 1, 0⟩ ⟨0, 0, 1, 0⟩ { seed := some (.finite 42) }
        (fun _ => 0) 10 =
      projSimulateGame zeroOps ⟨0, 0, 1, 0⟩ ⟨0, 0, 1, 0⟩ { seed := some (.finite 42) }
        (fun _ => 1/2) 10 :=
  C1_determinism 42 ⟨1, 1⟩ ⟨1, 1⟩ { seed := some (.finite 42) } zeroOps
    ⟨0, 0, 1, 0⟩ ⟨0, 0, 1, 0⟩ { seed := some (.finite 42) } 10
    (fun _ => 0) (fun _ => 1/2) rfl rfl

/-! ## Lemmas about `simulateDrive` and the Drive Engine loops -/

lemma simulateDrive_error_iff (off dfn : ℚ) (s : ℕ → ℚ) (i : ℕ) :
    (∃ e, simulateDrive off dfn s i = .error e) ↔ off ≤ 0 ∨ dfn ≤ 0 := by
  unfold simulateDrive
  constructor
  · rintro ⟨e, he⟩
    split_ifs at he with h1 h2 <;> first
      | (left; exact le_of_not_lt h1)
      | (right; exact le_of_not_lt h2)
      | simp_all
  · intro h
    by_cases h1 : 0 < off
    · have h2 : dfn ≤ 0 := h.resolve_left (not_le.mpr h1)
      exact ⟨_, by rw [if_neg (not_not_intro h1), if_pos (not_lt.mpr h2)]⟩
    · exact ⟨_, by rw [if_pos h1]⟩

lemma simulateDrive_ok_spec {off dfn : ℚ} {s : ℕ → ℚ} {i : ℕ} {o : DriveOutcome}
    {j : ℕ} (h : simulateDrive off dfn s i = .ok (o, j)) :
    (s i < scoringProbability off dfn →
      j = i + 2 ∧ (s (i + 1) < 3/4 → o = ⟨.TD, 7⟩) ∧
        (¬ s (i + 1) < 3/4 → o = ⟨.FG, 3⟩)) ∧
    (¬ s i < scoringProbability off dfn → j = i + 1 ∧ o = ⟨.NONE, 0⟩) := by
  unfold simulateDrive at h
  split_ifs at h with h1 h2 h3 h4 <;> simp_all

/-- C2: `simulateDrive` fails exactly when `offense ≤ 0` or `defense ≤ 0`;
on success the scoring probability is
`clamp(0.4 * clamp(offense,0.2,4)/clamp(defense,0.2,4), 0, 0.85)`
(definition `scoringProbability`), the first uniform sample decides scoring,
the second decides touchdown (7) versus field goal (3), exactly 2 values are
consumed when a score occurs and exactly 1 otherwise, and the returned points
are always in `{0, 3, 7}`. -/
theorem C2_simulateDrive_contract (off dfn : ℚ) (s : ℕ → ℚ) (i : ℕ) :
    ((∃ e, simulateDrive off dfn s i = .error e) ↔ off ≤ 0 ∨ dfn ≤ 0) ∧
    (∀ o j, simulateDrive off dfn s i = .ok (o, j) →
      (o.points = 0 ∨ o.points = 3 ∨ o.points = 7) ∧
      (s i < scoringProbability off dfn →
        j = i + 2 ∧ (s (i + 1) < 3/4 → o = ⟨.TD, 7⟩) ∧
          (¬ s (i + 1) < 3/4 → o = ⟨.FG, 3⟩)) ∧
      (¬ s i < scoringProbability off dfn → j = i + 1 ∧ o = ⟨.NONE, 0⟩)) := by
  refine ⟨simulateDrive_error_iff off dfn s i, fun o j h => ⟨?_, simulateDrive_ok_spec h⟩⟩
  have hs := simulateDrive_ok_spec h
  by_cases hc : s i < scoringProbability off dfn
  · obtain ⟨-, htd, hfg⟩ := hs.1 hc
    by_cases hc2 : s (i + 1) < 3/4
    · rw [htd hc2]
      simp
    · rw [hfg hc2]
      simp
  · obtain ⟨-, ho⟩ := hs.2 hc
    rw [ho]
    simp

/-- Witness for C2 at a concrete scoring input. -/
theorem C2_witness :
    ((∃ e, simulateDrive 1 1 (fun _ => 0) 0 = .error e) ↔ (1:ℚ) ≤ 0 ∨ (1:ℚ) ≤ 0) ∧
    (∀ o j, simulateDrive 1 1 (fun _ => 0) 0 = .ok (o, j) →
      (o.points = 0 ∨ o.points = 3 ∨ o.points = 7) ∧
      ((fun _ : ℕ => (0:ℚ)) 0 < scoringProbability 1 1 →
        j = 0 + 2 ∧ ((fun _ : ℕ => (0:ℚ)) (0 + 1) < 3/4 → o = ⟨.TD, 7⟩) ∧
          (¬ (fun _ : ℕ => (0:ℚ)) (0 + 1) < 3/4 → o = ⟨.FG, 3⟩)) ∧
      (¬ (fun _ : ℕ => (0:ℚ)) 0 < scoringProbability 1 1 → j = 0 + 1 ∧ o = ⟨.NONE, 0⟩)) :=
  C2_simulateDrive_contract 1 1 (fun _ => 0) 0

/-- Total points of a list of drive outcomes (the JS code accumulates
`outcome.points` into the running score as it appends). -/
def sumPoints (l : List DriveOutcome) : ℤ :=
  (l.map DriveOutcome.points).sum

/-- The only outcome values `simulateDrive` ever builds. -/
def WFOutcome (o : DriveOutcome) : Prop :=
  o = ⟨.TD, 7⟩ ∨ o = ⟨.FG, 3⟩ ∨ o = ⟨.NONE, 0⟩

lemma simulateDrive_ok_wf {off dfn : ℚ} {s : ℕ → ℚ} {i : ℕ} {o : DriveOutcome}
    {j : ℕ} (h : simulateDrive off dfn s i = .ok (o, j)) : WFOutcome o := by
  unfold simulateDrive at h
  unfold WFOutcome
  split_ifs at h <;> simp_all

lemma simulateDrive_isOk {off dfn : ℚ} (hoff : 0 < off) (hdfn : 0 < dfn)
    (s : ℕ → ℚ) (i : ℕ) : ∃ o j, simulateDrive off dfn s i = .ok (o, j) := by
  unfold simulateDrive
  rw [if_neg (not_not_intro hoff), if_neg (not_not_intro hdfn)]
  split_ifs <;> exact ⟨_, _, rfl⟩

/-- The loop/score invariant of the Drive Engine: each score is the sum of
the recorded drives' points and also `7·TDs + 3·FGs` of the summary. -/
def DriveInv (st : DriveState) : Prop :=
  st.homeScore = sumPoints st.homeDrives ∧
  st.awayScore = sumPoints st.awayDrives ∧
  st.homeScore = 7 * st.summary.homeTDs + 3 * st.summary.homeFGs ∧
  st.awayScore = 7 * st.summary.awayTDs + 3 * st.summary.awayFGs

lemma recordOutcome_inv {st : DriveState} {side : TeamSide} {o : DriveOutcome}
    (hwf : WFOutcome o) (h : DriveInv st) : DriveInv (recordOutcome st side o) := by
  cases side <;> rcases hwf with rfl | rfl | rfl <;>
    simp_all [DriveInv, recordOutcome, sumPoints] <;> push_cast <;> omega

lemma driveRound_ok {home away : DriveTeamStats} {s : ℕ → ℚ} {st st' : DriveState}
    (h : driveRound home away s st = .ok st') (hinv : DriveInv st) :
    DriveInv st' ∧ st'.homeDrives.length = st.homeDrives.length + 1 ∧
      st'.awayDrives.length = st.awayDrives.length + 1 := by
  unfold driveRound at h
  cases heq₁ : simulateDrive home.offPtsDrive away.defPtsDrive s st.idx with
  | error e =>
      rw [heq₁] at h
      exact absurd h (by simp)
  | ok p =>
      obtain ⟨o₁, i₁⟩ := p
      rw [heq₁] at h
      dsimp only at h
      cases heq₂ : simulateDrive away.offPtsDrive home.defPtsDrive s
          (recordOutcome { st with idx := i₁ } .home o₁).idx with
      | error e =>
          rw [heq₂] at h
          exact absurd h (by simp)
      | ok p₂ =>
          obtain ⟨o₂, i₂⟩ := p₂
          rw [heq₂] at h
          dsimp only at h
          obtain rfl := (Except.ok.inj h).symm
          have hwf₁ := simulateDrive_ok_wf heq₁
          have hwf₂ := simulateDrive_ok_wf heq₂
          refine ⟨recordOutcome_inv hwf₂ (recordOutcome_inv hwf₁ hinv), ?_, ?_⟩ <;>
            cases side_eq : o₁ <;> simp [recordOutcome]

lemma driveRound_isOk {home away : DriveTeamStats} (s : ℕ → ℚ)
    (h1 : 0 < home.offPtsDrive) (h2 : 0 < home.defPtsDrive)
    (h3 : 0 < away.offPtsDrive) (h4 : 0 < away.defPtsDrive) (st : DriveState) :
    ∃ st', driveRound home away s st = .ok st' := by
  unfold driveRound
  obtain ⟨o₁, i₁, e₁⟩ := simulateDrive_isOk h1 h4 s st.idx
  rw [e₁]
  dsimp only
  obtain ⟨o₂, i₂, e₂⟩ := simulateDrive_isOk h3 h2 s
    (recordOutcome { st with idx := i₁ } .home o₁).idx
  rw [e₂]
  exact ⟨_, rfl⟩

lemma driveLoop_ok {home away : DriveTeamStats} {s : ℕ → ℚ} :
    ∀ {n : ℕ} {st st' : DriveState}, driveLoop home away s n st = .ok st' →
    DriveInv st →
    DriveInv st' ∧ st'.homeDrives.length = st.homeDrives.length + n ∧
      st'.awayDrives.length = st.awayDrives.length + n := by
  intro n
  induction n with
  | zero =>
      intro st st' h hinv
      unfold driveLoop at h
      obtain rfl := (Except.ok.inj h).symm
      exact ⟨hinv, rfl, rfl⟩
  | succ n ih =>
      intro st st' h hinv
      unfold driveLoop at h
      split at h
      · exact absurd h (by simp)
      · rename_i st₁ heq
        have h1 := driveRound_ok heq hinv
        have h2 := ih h h1.1
        refine ⟨h2.1, ?_, ?_⟩ <;> omega

lemma driveLoop_isOk {home away : DriveTeamStats} (s : ℕ → ℚ)
    (h1 : 0 < home.offPtsDrive) (h2 : 0 < home.defPtsDrive)
    (h3 : 0 < away.offPtsDrive) (h4 : 0 < away.defPtsDrive) :
    ∀ (n : ℕ) (st : DriveState), ∃ st', driveLoop home away s n st = .ok st' := by
  intro n
  induction n with
  | zero => exact fun st => ⟨st, rfl⟩
  | succ n ih =>
      intro st
      obtain ⟨st₁, e₁⟩ := driveRound_isOk s h1 h2 h3 h4 st
      obtain ⟨st', e'⟩ := ih st₁
      refine ⟨st', ?_⟩
      unfold driveLoop
      rw [e₁]
      exact e'

lemma driveOtLoop_ok {home away : DriveTeamStats} {s : ℕ → ℚ} :
    ∀ {n : ℕ} {st st' : DriveState} {r r' : ℕ},
    driveOtLoop home away s n st r = .ok (st', r') → DriveInv st →
    DriveInv st' ∧ ∃ k : ℕ, k ≤ n ∧ r' = r + k ∧
      st'.homeDrives.length = st.homeDrives.length + k ∧
      st'.awayDrives.length = st.awayDrives.length + k := by
  intro n
  induction n with
  | zero =>
      intro st st' r r' h hinv
      unfold driveOtLoop at h
      obtain he := Except.ok.inj h
      obtain ⟨rfl, rfl⟩ : st = st' ∧ r = r' := by
        constructor <;> [exact congrArg Prod.fst he; exact congrArg Prod.snd he]
      exact ⟨hinv, 0, by omega, by omega, by omega, by omega⟩
  | succ n ih =>
      intro st st' r r' h hinv
      unfold driveOtLoop at h
      split_ifs at h
      · split at h
        · exact absurd h (by simp)
        · rename_i st₁ heq
          have h1 := driveRound_ok heq hinv
          obtain ⟨hinv', k, hk, hr, hh, ha⟩ := ih h h1.1
          exact ⟨hinv', k + 1, by omega, by omega, by omega, by omega⟩
      · obtain he := Except.ok.inj h
        obtain ⟨rfl, rfl⟩ : st = st' ∧ r = r' := by
          constructor <;> [exact congrArg Prod.fst he; exact congrArg Prod.snd he]
        exact ⟨hinv, 0, by omega, by omega, by omega, by omega⟩

lemma driveOtLoop_isOk {home away : DriveTeamStats} (s : ℕ → ℚ)
    (h1 : 0 < home.offPtsDrive) (h2 : 0 < home.defPtsDrive)
    (h3 : 0 < away.offPtsDrive) (h4 : 0 < away.defPtsDrive) :
    ∀ (n : ℕ) (st : DriveState) (r : ℕ), ∃ p,
      driveOtLoop home away s n st r = .ok p := by
  intro n
  induction n with
  | zero => exact fun st r => ⟨(st, r), rfl⟩
  | succ n ih =>
      intro st r
      unfold driveOtLoop
      split_ifs
      · obtain ⟨st₁, e₁⟩ := driveRound_isOk s h1 h2 h3 h4 st
        rw [e₁]
        exact ih st₁ (r + 1)
      · exact ⟨(st, r), rfl⟩

/-- Everything the Drive-Engine core guarantees on success: scores are sums
of the drive lists, scores match the TD/FG counters, and both drive lists
have regulation length (`⌈drivesPerTeam⌉`) plus one entry per overtime round
played. -/
lemma driveCore_props {home away : DriveTeamStats} {cfg : DriveGameConfig}
    {s : ℕ → ℚ} {r : DriveSimResult} {k : ℕ}
    (h : driveSimulateGameCore home away cfg s = .ok (r, k)) :
    r.homeScore = sumPoints r.homeDrives ∧
    r.awayScore = sumPoints r.awayDrives ∧
    r.homeScore = 7 * r.summary.homeTDs + 3 * r.summary.homeFGs ∧
    r.awayScore = 7 * r.summary.awayTDs + 3 * r.summary.awayFGs ∧
    ∃ rp : ℕ,
      r.homeDrives.length = (jsCeil (cfg.drivesPerTeam.getD 12)).toNat + rp ∧
      r.awayDrives.length = (jsCeil (cfg.drivesPerTeam.getD 12)).toNat + rp := by
  unfold driveSimulateGameCore at h
  rw [ite_eq_iff] at h
  rcases h with ⟨-, h⟩ | ⟨-, h⟩
  · exact absurd h (by simp)
  · split at h
    · exact absurd h (by simp)
    · rename_i st₁ heq₁
      dsimp only at h
      split at h
      · exact absurd h (by simp)
      · rename_i st₂ rp heq₂
        obtain he := Except.ok.inj h
        have hr : r = ⟨st₂.homeScore, st₂.awayScore, st₂.homeDrives,
            st₂.awayDrives, st₂.summary⟩ := (congrArg Prod.fst he).symm
        have hinv0 : DriveInv ⟨0, 0, [], [], ⟨0, 0, 0, 0⟩, 0⟩ := by
          simp [DriveInv, sumPoints]
        have h1 := driveLoop_ok heq₁ hinv0
        have h2 := driveOtLoop_ok heq₂ h1.1
        obtain ⟨hinv₂, kk, -, -, hh, ha⟩ := h2
        subst hr
        obtain ⟨i1, i2, i3, i4⟩ := hinv₂
        refine ⟨i1, i2, i3, i4, kk, ?_, ?_⟩ <;> simp_all

lemma driveGame_inv {home away : DriveTeamStats} {cfg : DriveGameConfig}
    {sys : ℕ → ℚ} {r : DriveSimResult} {k : ℕ}
    (h : driveSimulateGame home away cfg sys = .ok (r, k)) :
    ∃ s, (createRandomGenerator cfg.seed).resolve sys = some s ∧
      driveSimulateGameCore home away cfg s = .ok (r, k) := by
  unfold driveSimulateGame at h
  split at h
  · exact absurd h (by simp)
  · rename_i s heq
    exact ⟨s, heq, h⟩

/-- C9: in every successful Drive-Engine game, each team's score equals
`7 * TDs + 3 * FGs` of the summary counters (which also count overtime
drives, recorded through the same `recordOutcome`). -/
theorem C9_summary_consistency (home away : DriveTeamStats)
    (cfg : DriveGameConfig) (sys : ℕ → ℚ) (r : DriveSimResult) (k : ℕ)
    (h : driveSimulateGame home away cfg sys = .ok (r, k)) :
    r.homeScore = 7 * r.summary.homeTDs + 3 * r.summary.homeFGs ∧
    r.awayScore = 7 * r.summary.awayTDs + 3 * r.summary.awayFGs := by
  obtain ⟨s, -, hcore⟩ := driveGame_inv h
  obtain ⟨-, -, h3, h4, -⟩ := driveCore_props hcore
  exact ⟨h3, h4⟩

/-- Witness for C9: a concrete one-drive game where neither team scores. -/
theorem C9_witness :
    (0 : ℤ) = 7 * ((0 : ℕ) : ℤ) + 3 * ((0 : ℕ) : ℤ) ∧
    (0 : ℤ) = 7 * ((0 : ℕ) : ℤ) + 3 * ((0 : ℕ) : ℤ) :=
  C9_summary_consistency ⟨1, 1⟩ ⟨1, 1⟩ { drivesPerTeam := some 1 } (fun _ => 1/2)
    ⟨0, 0, [⟨.NONE, 0⟩], [⟨.NONE, 0⟩], ⟨0, 0, 0, 0⟩⟩ 2
    (by with_unfolding_all decide)

lemma jsCeil_pos {d : ℚ} (hd : 0 < d) : 0 < jsCeil d := by
  unfold jsCeil
  have h : ¬ (0 : ℤ) ≤ (-d).floor := by
    rw [Rat.le_floor]
    push_cast
    linarith
  omega

/-- C10: a positive non-integer `drivesPerTeam` such as `2.5` is not
rejected; the regulation `for` loop runs `⌈d⌉` times, so (with ties allowed,
i.e. no overtime) each drive list has exactly `⌈d⌉` entries. -/
theorem C10_fractional_drivesPerTeam (home away : DriveTeamStats)
    (cfg : DriveGameConfig) (sys s : ℕ → ℚ) (d : ℚ)
    (hd : cfg.drivesPerTeam = some d) (hdp : 0 < d) (hni : d.den ≠ 1)
    (hat : cfg.allowTies = some true)
    (h1 : 0 < home.offPtsDrive) (h2 : 0 < home.defPtsDrive)
    (h3 : 0 < away.offPtsDrive) (h4 : 0 < away.defPtsDrive)
    (hres : (createRandomGenerator cfg.seed).resolve sys = some s) :
    ∃ r k, driveSimulateGame home away cfg sys = .ok (r, k) ∧
      r.homeDrives.length = (jsCeil d).toNat ∧
      r.awayDrives.length = (jsCeil d).toNat := by
  unfold driveSimulateGame
  rw [hres]
  unfold driveSimulateGameCore
  rw [hd, hat]
  dsimp only [Option.getD_some]
  rw [if_neg (not_not_intro hdp)]
  have hinv0 : DriveInv ⟨0, 0, [], [], ⟨0, 0, 0, 0⟩, 0⟩ := by
    simp [DriveInv, sumPoints]
  obtain ⟨st₁, e₁⟩ := driveLoop_isOk s h1 h2 h3 h4 (jsCeil d).toNat
    ⟨0, 0, [], [], ⟨0, 0, 0, 0⟩, 0⟩
  rw [e₁]
  have hlen := driveLoop_ok e₁ hinv0
  simp only [Bool.not_true, Bool.false_and, Option.getD_some]
  refine ⟨_, _, rfl, ?_, ?_⟩ <;> simp_all

/-- Witness for C10 at `drivesPerTeam = 2.5`: three regulation rounds. -/
theorem C10_witness :
    ∃ r k, driveSimulateGame ⟨1, 1⟩ ⟨1, 1⟩
        { drivesPerTeam := some (5/2), allowTies := some true } (fun _ => 1/2) =
          .ok (r, k) ∧
      r.homeDrives.length = (jsCeil (5/2)).toNat ∧
      r.awayDrives.length = (jsCeil (5/2)).toNat :=
  C10_fractional_drivesPerTeam ⟨1, 1⟩ ⟨1, 1⟩
    { drivesPerTeam := some (5/2), allowTies := some true } (fun _ => 1/2)
    (fun _ => 1/2) (5/2) rfl (by with_unfolding_all decide)
    (by with_unfolding_all decide) rfl (by norm_num) (by norm_num)
    (by norm_num) (by norm_num) rfl

/-- C8 (counterexample): when the away team's offense is invalid but the home
team's inputs are valid, the Drive Engine records the home drive first — a
failing call that has already consumed 2 RNG values (the error's recorded
stream index) and accumulated the home score before validation rejects the
away offense. -/
theorem C8_counterexample :
    driveSimulateGame ⟨1, 1⟩ ⟨-1, 1⟩ { drivesPerTeam := some 1 } (fun _ => 0) =
      .error (.invalidInput "offensePtsDrive must be greater than 0" 2) := by
  with_unfolding_all decide

lemma calculateTeamDetail_error {R : RealOps} {s : ℕ → ℚ} {fuel : ℕ}
    {team opp : ProjTeamStats} (i : ℕ)
    (h : team.pointsPerGame < 0 ∨ team.pointsAllowedPerGame < 0 ∨
      team.yardsPerPlay ≤ 0 ∨ team.turnoverRate < 0 ∨
      opp.pointsAllowedPerGame < 0) :
    ∃ msg, calculateTeamDetail R s fuel team opp i = .error (.invalidInput msg i) := by
  unfold calculateTeamDetail
  split_ifs with h1 h2 h3 h4 h5
  · exact ⟨_, rfl⟩
  · exact ⟨_, rfl⟩
  · exact ⟨_, rfl⟩
  · exact ⟨_, rfl⟩
  · exact ⟨_, rfl⟩
  · rcases h with h | h | h | h | h
    · exact absurd h h1
    · exact absurd h h2
    · exact absurd h h3
    · exact absurd h h4
    · exact absurd h h5

/-- C8 (amended): there are no partial results — a failing call returns only
the error — but validation is interleaved with simulation, team by team, not
performed up front. A call that fails on the inputs validated first (the
drive count; the home-drive inputs `home.offPtsDrive`/`away.defPtsDrive` in
the Drive Engine; the home-side fields and `away.pointsAllowedPerGame` in the
Projection Engine) consumes no RNG values (the error records stream index 0);
a call failing only on later-validated inputs may consume RNG values first,
as `C8_counterexample` shows. -/
theorem C8_amended :
    (∀ (home away : DriveTeamStats) (cfg : DriveGameConfig) (s : ℕ → ℚ),
      (cfg.drivesPerTeam.getD 12 ≤ 0 ∨
        (0 < cfg.drivesPerTeam.getD 12 ∧
          (home.offPtsDrive ≤ 0 ∨ away.defPtsDrive ≤ 0))) →
      ∃ msg, driveSimulateGameCore home away cfg s = .error (.invalidInput msg 0)) ∧
    (∀ (R : RealOps) (home away : ProjTeamStats) (cfg : ProjGameConfig)
       (s : ℕ → ℚ) (fuel : ℕ),
      (home.pointsPerGame < 0 ∨ home.pointsAllowedPerGame < 0 ∨
        home.yardsPerPlay ≤ 0 ∨ home.turnoverRate < 0 ∨
        away.pointsAllowedPerGame < 0) →
      ∃ msg, projPhasesCore R home away cfg s fuel =
        .error (.invalidInput msg 0)) := by
  constructor
  · intro home away cfg s h
    unfold driveSimulateGameCore
    rcases h with h | ⟨hd, hv⟩
    · rw [if_pos (not_lt.mpr h)]
      exact ⟨_, rfl⟩
    · rw [if_neg (not_not_intro hd)]
      obtain ⟨m, hm⟩ : ∃ m, (jsCeil (cfg.drivesPerTeam.getD 12)).toNat = m + 1 := by
        have := jsCeil_pos hd
        exact ⟨(jsCeil (cfg.drivesPerTeam.getD 12)).toNat - 1, by omega⟩
      rw [hm]
      have he : ∃ msg, simulateDrive home.offPtsDrive away.defPtsDrive s 0 =
          .error (.invalidInput msg 0) := by
        unfold simulateDrive
        rcases hv with hv | hv
        · rw [if_pos (not_lt.mpr hv)]
          exact ⟨_, rfl⟩
        · by_cases ho : 0 < home.offPtsDrive
          · rw [if_neg (not_not_intro ho), if_pos (not_lt.mpr hv)]
            exact ⟨_, rfl⟩
          · rw [if_pos ho]
            exact ⟨_, rfl⟩
      obtain ⟨msg, he⟩ := he
      refine ⟨msg, ?_⟩
      unfold driveLoop driveRound
      rw [he]
  · intro R home away cfg s fuel h
    unfold projPhasesCore
    obtain ⟨msg, he⟩ := @calculateTeamDetail_error R s fuel home away 0 h
    refine ⟨msg, ?_⟩
    rw [he]

/-- Witness for C8 (amended): concrete zero-consumption failures in both
engines. -/
theorem C8_witness :
    (∃ msg, driveSimulateGameCore ⟨-1, 1⟩ ⟨1, 1⟩ {} (fun _ => 0) =
      .error (.invalidInput msg 0)) ∧
    (∃ msg, projPhasesCore zeroOps ⟨-1, 0, 1, 0⟩ ⟨0, 0, 1, 0⟩ {} (fun _ => 0) 10 =
      .error (.invalidInput msg 0)) :=
  ⟨C8_amended.1 ⟨-1, 1⟩ ⟨1, 1⟩ {} (fun _ => 0)
      (Or.inr ⟨by norm_num, Or.inl (by norm_num)⟩),
   C8_amended.2 zeroOps ⟨-1, 0, 1, 0⟩ ⟨0, 0, 1, 0⟩ {} (fun _ => 0) 10
      (Or.inl (by norm_num))⟩

/-! ## Lemmas about the Projection Engine -/

lemma simulateOtPoints_ok_nonneg {R : RealOps} {s : ℕ → ℚ} {fuel : ℕ}
    {e y t sc : ℚ} {i : ℕ} {p : ℤ} {j : ℕ}
    (h : simulateOtPoints R s fuel e y t sc i = .ok (p, j)) : 0 ≤ p := by
  unfold simulateOtPoints at h
  split_ifs at h <;> try exact Except.noConfusion h
  dsimp only at h
  split at h
  · exact absurd h (by simp)
  · rename_i v i' heq
    have he := Except.ok.inj h
    injection he with h1 h2
    rw [← h1]
    exact le_max_left _ _

lemma calculateTeamDetail_ok_final {R : RealOps} {s : ℕ → ℚ} {fuel : ℕ}
    {team opp : ProjTeamStats} {i : ℕ} {d : TeamSimulationDetail} {j : ℕ}
    (h : calculateTeamDetail R s fuel team opp i = .ok (d, j)) :
    0 ≤ d.finalPoints := by
  unfold calculateTeamDetail at h
  split_ifs at h <;> try exact Except.noConfusion h
  dsimp only at h
  split at h
  · exact absurd h (by simp)
  · rename_i v i' heq
    have he := Except.ok.inj h
    injection he with h1 h2
    rw [← h1]
    exact le_max_left _ _

/-- The extra point the home team receives from a tiebreak record `tb`
(lines 200–213): with policy `expected` home gets it unless away has strictly
higher expected points; with policy `home` always; none without tiebreak. -/
def homeTiebreakBonus (tb : Option TiebreakPolicy) (hExp aExp : ℚ) : ℤ :=
  match tb with
  | none => 0
  | some .home => 1
  | some .expected => if aExp > hExp then 0 else 1

/-- The extra point the away team receives from a tiebreak record `tb`. -/
def awayTiebreakBonus (tb : Option TiebreakPolicy) (hExp aExp : ℚ) : ℤ :=
  match tb with
  | none => 0
  | some .home => 0
  | some .expected => if aExp > hExp then 1 else 0

/-- The tiebreak recorded in a returned result (absent `overtime` means no
tiebreak was applied). -/
def ProjSimResult.tiebreak (r : ProjSimResult) : Option TiebreakPolicy :=
  match r.overtime with
  | none => none
  | some ot => ot.tiebreakApplied

lemma homeTiebreakBonus_nonneg (tb : Option TiebreakPolicy) (hE aE : ℚ) :
    0 ≤ homeTiebreakBonus tb hE aE := by
  cases tb with
  | none => simp [homeTiebreakBonus]
  | some p =>
      cases p <;> simp only [homeTiebreakBonus] <;> (try split_ifs) <;> omega

lemma awayTiebreakBonus_nonneg (tb : Option TiebreakPolicy) (hE aE : ℚ) :
    0 ≤ awayTiebreakBonus tb hE aE := by
  cases tb with
  | none => simp [awayTiebreakBonus]
  | some p =>
      cases p <;> simp only [awayTiebreakBonus] <;> (try split_ifs) <;> omega

lemma applyTiebreak_eq (policy : TiebreakPolicy) (hE aE : ℚ) (h a : ℤ) :
    applyTiebreak policy hE aE h a =
      (h + homeTiebreakBonus (some policy) hE aE,
       a + awayTiebreakBonus (some policy) hE aE) := by
  cases policy with
  | expected =>
      simp only [applyTiebreak, homeTiebreakBonus, awayTiebreakBonus]
      split_ifs with h1 h2
      · exact absurd h2 (by linarith)
      · simp
      · simp
      · simp
  | home =>
      simp [applyTiebreak, homeTiebreakBonus, awayTiebreakBonus]

lemma applyTiebreak_ne {policy : TiebreakPolicy} {hE aE : ℚ} {h a : ℤ}
    (heq : h = a) :
    (applyTiebreak policy hE aE h a).1 ≠ (applyTiebreak policy hE aE h a).2 := by
  subst heq
  cases policy with
  | expected =>
      simp only [applyTiebreak]
      split_ifs <;> dsimp only <;> omega
  | home =>
      dsimp only [applyTiebreak]
      omega

/-- The overtime-loop invariant of the Projection Engine: running scores are
the base projections plus the accumulated (nonnegative) per-round points,
and one list entry is appended per round. -/
def ProjInv (hFin aFin : ℤ) (st : ProjOtState) : Prop :=
  st.homeScore = hFin + st.otHome.sum ∧
  st.awayScore = aFin + st.otAway.sum ∧
  st.otHome.length = st.rounds ∧ st.otAway.length = st.rounds ∧
  (∀ x ∈ st.otHome, 0 ≤ x) ∧ (∀ x ∈ st.otAway, 0 ≤ x)

lemma projOtLoop_ok {R : RealOps} {s : ℕ → ℚ} {fuel : ℕ}
    {home away : ProjTeamStats} {hE aE sc : ℚ} :
    ∀ {n : ℕ} {st st' : ProjOtState} {hFin aFin : ℤ},
    projOtLoop R s fuel home away hE aE sc n st = .ok st' →
    ProjInv hFin aFin st → ProjInv hFin aFin st' := by
  intro n
  induction n with
  | zero =>
      intro st st' hF aF h hinv
      unfold projOtLoop at h
      obtain rfl := (Except.ok.inj h).symm
      exact hinv
  | succ n ih =>
      intro st st' hF aF h hinv
      unfold projOtLoop at h
      split_ifs at h with ht
      · split at h
        · exact absurd h (by simp)
        · rename_i hOt i₁ heq₁
          split at h
          · exact absurd h (by simp)
          · rename_i aOt i₂ heq₂
            refine ih h ?_
            obtain ⟨e1, e2, e3, e4, e5, e6⟩ := hinv
            have hh := simulateOtPoints_ok_nonneg heq₁
            have ha := simulateOtPoints_ok_nonneg heq₂
            refine ⟨?_, ?_, ?_, ?_, ?_, ?_⟩
            · dsimp only
              rw [List.sum_append]
              simp only [List.sum_cons, List.sum_nil]
              omega
            · dsimp only
              rw [List.sum_append]
              simp only [List.sum_cons, List.sum_nil]
              omega
            · dsimp only
              rw [List.length_append]
              simp only [List.length_cons, List.length_nil]
              omega
            · dsimp only
              rw [List.length_append]
              simp only [List.length_cons, List.length_nil]
              omega
            · intro x hx
              rcases List.mem_append.mp hx with hx | hx
              · exact e5 x hx
              · rw [List.mem_singleton.mp hx]
                exact hh
            · intro x hx
              rcases List.mem_append.mp hx with hx | hx
              · exact e6 x hx
              · rw [List.mem_singleton.mp hx]
                exact ha
      · obtain rfl := (Except.ok.inj h).symm
        exact hinv

lemma projGame_inv {R : RealOps} {home away : ProjTeamStats}
    {cfg : ProjGameConfig} {sys : ℕ → ℚ} {fuel : ℕ} {r : ProjSimResult} {k : ℕ}
    (h : projSimulateGame R home away cfg sys fuel = .ok (r, k)) :
    ∃ s ph, (createRandomGenerator cfg.seed).resolve sys = some s ∧
      projPhasesCore R home away cfg s fuel = .ok ph ∧
      r = projAssemble ph ∧ k = ph.idx := by
  unfold projSimulateGame at h
  split at h
  · exact absurd h (by simp)
  · rename_i s heq
    split at h
    · exact absurd h (by simp)
    · rename_i ph heq₂
      obtain he := Except.ok.inj h
      exact ⟨s, ph, heq, heq₂, (congrArg Prod.fst he).symm,
        (congrArg Prod.snd he).symm⟩

/-- Everything `projPhasesCore` guarantees on success: nonnegative base
projections and overtime points, the score decomposition
`score = finalPoints + Σ overtime + tiebreak bonus`, and — when the resolved
`allowTies` is `false` — distinct final scores. -/
lemma projPhasesCore_ok_main {R : RealOps} {home away : ProjTeamStats}
    {cfg : ProjGameConfig} {s : ℕ → ℚ} {fuel : ℕ} {ph : ProjPhases}
    (h : projPhasesCore R home away cfg s fuel = .ok ph) :
    0 ≤ ph.homeDetail.finalPoints ∧ 0 ≤ ph.awayDetail.finalPoints ∧
    (∀ x ∈ ph.otHome, 0 ≤ x) ∧ (∀ x ∈ ph.otAway, 0 ≤ x) ∧
    ph.homeScore = ph.homeDetail.finalPoints + ph.otHome.sum +
      homeTiebreakBonus ph.tiebreak ph.homeDetail.expectedPoints
        ph.awayDetail.expectedPoints ∧
    ph.awayScore = ph.awayDetail.finalPoints + ph.otAway.sum +
      awayTiebreakBonus ph.tiebreak ph.homeDetail.expectedPoints
        ph.awayDetail.expectedPoints ∧
    (cfg.allowTies.getD false = false → ph.homeScore ≠ ph.awayScore) := by
  unfold projPhasesCore at h
  dsimp only at h
  split at h
  · exact absurd h (by simp)
  · rename_i homeDetail i₁ heq₁
    split at h
    · exact absurd h (by simp)
    · rename_i awayDetail i₂ heq₂
      have hhf := calculateTeamDetail_ok_final heq₁
      have haf := calculateTeamDetail_ok_final heq₂
      have hinv0 : ProjInv homeDetail.finalPoints awayDetail.finalPoints
          ⟨homeDetail.finalPoints, awayDetail.finalPoints, [], [], 0, i₂⟩ := by
        simp [ProjInv]
      split_ifs at h with hcond
      · split at h
        · exact absurd h (by simp)
        · rename_i st heq₃
          have hinv := projOtLoop_ok heq₃ hinv0
          obtain ⟨e1, e2, e3, e4, e5, e6⟩ := hinv
          split_ifs at h with htie
          · obtain rfl := (Except.ok.inj h).symm
            dsimp only
            rw [applyTiebreak_eq]
            dsimp only
            refine ⟨hhf, haf, e5, e6, by omega, by omega, fun _ => ?_⟩
            have := @applyTiebreak_ne (cfg.tiebreakPolicy.getD .expected)
              homeDetail.expectedPoints awayDetail.expectedPoints _ _ htie
            rw [applyTiebreak_eq] at this
            exact this
          · obtain rfl := (Except.ok.inj h).symm
            dsimp only
            exact ⟨hhf, haf, e5, e6, by simp [ProjSimResult.tiebreak, homeTiebreakBonus]; omega,
              by simp [awayTiebreakBonus]; omega, fun _ => htie⟩
      · obtain rfl := (Except.ok.inj h).symm
        dsimp only
        refine ⟨hhf, haf, by simp, by simp,
          by simp [homeTiebreakBonus], by simp [awayTiebreakBonus], fun hat => ?_⟩
        intro heq
        exact hcond ⟨hat, heq⟩

/-- C3: with resolved `allowTies = false` (explicit `false` or the default),
every successful Projection-Engine game ends with distinct scores: either an
overtime round broke the tie, or `applyTiebreak` awarded exactly one extra
point (policy `expected` to the strictly higher `expectedPoints`, home on
equality; policy `home` always to home). -/
theorem C3_no_ties_projection (R : RealOps) (home away : ProjTeamStats)
    (cfg : ProjGameConfig) (sys : ℕ → ℚ) (fuel : ℕ) (r : ProjSimResult) (k : ℕ)
    (hAT : cfg.allowTies.getD false = false)
    (h : projSimulateGame R home away cfg sys fuel = .ok (r, k)) :
    r.homeScore ≠ r.awayScore := by
  obtain ⟨s, ph, -, hph, rfl, -⟩ := projGame_inv h
  exact (projPhasesCore_ok_main hph).2.2.2.2.2.2 hAT

/-- Witness for C3: a concrete all-zero projection tie, resolved by the
`expected` tiebreak in home's favour (1 to 0). -/
theorem C3_witness : (1 : ℤ) ≠ (0 : ℤ) :=
  C3_no_ties_projection zeroOps ⟨0, 0, 1, 0⟩ ⟨0, 0, 1, 0⟩ {} (fun _ => 1/2) 10
    ⟨1, 0, ⟨0, 0, 0, 0, 0, [0, 0, 0]⟩, ⟨0, 0, 0, 0, 0, [0, 0, 0]⟩,
      some ⟨3, [0, 0, 0], [0, 0, 0], some .expected⟩⟩ 16
    rfl (by with_unfolding_all decide)

/-- C4: score decomposition and nonnegativity for both engines. Drive
variant: each team's score is the sum of the points of its drive list, and
both lists have regulation length `⌈drivesPerTeam⌉` (equal to `drivesPerTeam`
when it is an integer) plus one entry per overtime round played. Projection
variant: each team's score is its base projection `finalPoints` plus the sum
of its overtime points plus its tiebreak bonus. No score is negative. -/
theorem C4_score_decomposition :
    (∀ (home away : DriveTeamStats) (cfg : DriveGameConfig) (sys : ℕ → ℚ)
       (r : DriveSimResult) (k : ℕ),
      driveSimulateGame home away cfg sys = .ok (r, k) →
      r.homeScore = sumPoints r.homeDrives ∧
      r.awayScore = sumPoints r.awayDrives ∧
      (∃ rp : ℕ,
        r.homeDrives.length = (jsCeil (cfg.drivesPerTeam.getD 12)).toNat + rp ∧
        r.awayDrives.length = (jsCeil (cfg.drivesPerTeam.getD 12)).toNat + rp) ∧
      0 ≤ r.homeScore ∧ 0 ≤ r.awayScore) ∧
    (∀ (R : RealOps) (home away : ProjTeamStats) (cfg : ProjGameConfig)
       (sys : ℕ → ℚ) (fuel : ℕ) (r : ProjSimResult) (k : ℕ),
      projSimulateGame R home away cfg sys fuel = .ok (r, k) →
      r.homeScore = r.homeDetail.finalPoints + r.homeDetail.overtimePoints.sum +
        homeTiebreakBonus r.tiebreak r.homeDetail.expectedPoints
          r.awayDetail.expectedPoints ∧
      r.awayScore = r.awayDetail.finalPoints + r.awayDetail.overtimePoints.sum +
        awayTiebreakBonus r.tiebreak r.homeDetail.expectedPoints
          r.awayDetail.expectedPoints ∧
      0 ≤ r.homeScore ∧ 0 ≤ r.awayScore) := by
  constructor
  · intro home away cfg sys r k h
    obtain ⟨s, -, hcore⟩ := driveGame_inv h
    obtain ⟨h1, h2, h3, h4, rp, h5, h6⟩ := driveCore_props hcore
    refine ⟨h1, h2, ⟨rp, h5, h6⟩, ?_, ?_⟩
    · rw [h3]; positivity
    · rw [h4]; positivity
  · intro R home away cfg sys fuel r k h
    obtain ⟨s, ph, -, hph, rfl, -⟩ := projGame_inv h
    obtain ⟨n1, n2, n3, n4, s1, s2, -⟩ := projPhasesCore_ok_main hph
    have htb : (projAssemble ph).tiebreak = ph.tiebreak := by
      unfold ProjSimResult.tiebreak projAssemble
      dsimp only
      split_ifs with hc
      · rfl
      · push_neg at hc
        exact hc.2.symm
    have hhd : (projAssemble ph).homeDetail.overtimePoints = ph.otHome := rfl
    have had : (projAssemble ph).awayDetail.overtimePoints = ph.otAway := rfl
    refine ⟨?_, ?_, ?_, ?_⟩
    · rw [htb, hhd]
      exact s1
    · rw [htb, had]
      exact s2
    · have hb := homeTiebreakBonus_nonneg ph.tiebreak ph.homeDetail.expectedPoints
        ph.awayDetail.expectedPoints
      have hsum : 0 ≤ ph.otHome.sum := List.sum_nonneg n3
      show 0 ≤ ph.homeScore
      omega
    · have hb := awayTiebreakBonus_nonneg ph.tiebreak ph.homeDetail.expectedPoints
        ph.awayDetail.expectedPoints
      have hsum : 0 ≤ ph.otAway.sum := List.sum_nonneg n4
      show 0 ≤ ph.awayScore
      omega

/-- Witness for C4: concrete runs of both engines. -/
theorem C4_witness :
    (∃ r k, driveSimulateGame ⟨1, 1⟩ ⟨1, 1⟩ { drivesPerTeam := some 1 }
        (fun _ => 1/2) = .ok (r, k) ∧
      r.homeScore = sumPoints r.homeDrives ∧ 0 ≤ r.homeScore) ∧
    (∃ r k, projSimulateGame zeroOps ⟨0, 0, 1, 0⟩ ⟨0, 0, 1, 0⟩ {}
        (fun _ => 1/2) 10 = .ok (r, k) ∧
      r.homeScore = r.homeDetail.finalPoints + r.homeDetail.overtimePoints.sum +
        homeTiebreakBonus r.tiebreak r.homeDetail.expectedPoints
          r.awayDetail.expectedPoints ∧
      0 ≤ r.homeScore) := by
  constructor
  · refine ⟨⟨0, 0, [⟨.NONE, 0⟩], [⟨.NONE, 0⟩], ⟨0, 0, 0, 0⟩⟩, 2,
      by with_unfolding_all decide, ?_, ?_⟩
    · exact (C4_score_decomposition.1 ⟨1, 1⟩ ⟨1, 1⟩ { drivesPerTeam := some 1 }
        (fun _ => 1/2) ⟨0, 0, [⟨.NONE, 0⟩], [⟨.NONE, 0⟩], ⟨0, 0, 0, 0⟩⟩ 2
        (by with_unfolding_all decide)).1
    · exact (C4_score_decomposition.1 ⟨1, 1⟩ ⟨1, 1⟩ { drivesPerTeam := some 1 }
        (fun _ => 1/2) ⟨0, 0, [⟨.NONE, 0⟩], [⟨.NONE, 0⟩], ⟨0, 0, 0, 0⟩⟩ 2
        (by with_unfolding_all decide)).2.2.2.1
  · refine ⟨⟨1, 0, ⟨0, 0, 0, 0, 0, [0, 0, 0]⟩, ⟨0, 0, 0, 0, 0, [0, 0, 0]⟩,
      some ⟨3, [0, 0, 0], [0, 0, 0], some .expected⟩⟩, 16,
      by with_unfolding_all decide, ?_, ?_⟩
    · exact (C4_score_decomposition.2 zeroOps ⟨0, 0, 1, 0⟩ ⟨0, 0, 1, 0⟩ {}
        (fun _ => 1/2) 10
        ⟨1, 0, ⟨0, 0, 0, 0, 0, [0, 0, 0]⟩, ⟨0, 0, 0, 0, 0, [0, 0, 0]⟩,
          some ⟨3, [0, 0, 0], [0, 0, 0], some .expected⟩⟩ 16
        (by with_unfolding_all decide)).1
    · exact (C4_score_decomposition.2 zeroOps ⟨0, 0, 1, 0⟩ ⟨0, 0, 1, 0⟩ {}
        (fun _ => 1/2) 10
        ⟨1, 0, ⟨0, 0, 0, 0, 0, [0, 0, 0]⟩, ⟨0, 0, 0, 0, 0, [0, 0, 0]⟩,
          some ⟨3, [0, 0, 0], [0, 0, 0], some .expected⟩⟩ 16
        (by with_unfolding_all decide)).2.2.1

/-- Witness for C6 (amended) at an absent seed. -/
theorem C6_witness :
    createRandomGenerator none = .system ↔
      (none : Option JSNum) = none ∨ (none : Option JSNum) = some .nan :=
  C6_amended none

/-- C7: in every Projection-Engine call that returns, the `overtime` field is
present exactly when at least one overtime round was played or a tiebreak was
applied, and when present it records exactly those `roundsPlayed` /
`tiebreakApplied` values. -/
theorem C7_overtime_presence (R : RealOps) (home away : ProjTeamStats)
    (cfg : ProjGameConfig) (sys : ℕ → ℚ) (fuel : ℕ) (r : ProjSimResult) (k : ℕ)
    (h : projSimulateGame R home away cfg sys fuel = .ok (r, k)) :
    ∃ s ph, (createRandomGenerator cfg.seed).resolve sys = some s ∧
      projPhasesCore R home away cfg s fuel = .ok ph ∧ r = projAssemble ph ∧
      (r.overtime.isSome ↔ 0 < ph.rounds ∨ ph.tiebreak ≠ none) ∧
      (∀ ot, r.overtime = some ot →
        ot.rounds = ph.rounds ∧ ot.tiebreakApplied = ph.tiebreak) := by
  obtain ⟨s, ph, h1, h2, rfl, -⟩ := projGame_inv h
  refine ⟨s, ph, h1, h2, rfl, ?_, ?_⟩
  · unfold projAssemble
    dsimp only
    split_ifs with hc <;> simp [hc]
  · intro ot hot
    unfold projAssemble at hot
    dsimp only at hot
    split_ifs at hot with hc
    obtain rfl := (Option.some.inj hot).symm
    exact ⟨rfl, rfl⟩

/-- Witness for C7: the concrete all-zero tie run, whose `overtime` field is
present with 3 rounds and an `expected` tiebreak. -/
theorem C7_witness :
    ∃ s ph,
      (createRandomGenerator ({} : ProjGameConfig).seed).resolve
        (fun _ => 1/2) = some s ∧
      projPhasesCore zeroOps ⟨0, 0, 1, 0⟩ ⟨0, 0, 1, 0⟩ {} s 10 = .ok ph ∧
      (⟨1, 0, ⟨0, 0, 0, 0, 0, [0, 0, 0]⟩, ⟨0, 0, 0, 0, 0, [0, 0, 0]⟩,
        some ⟨3, [0, 0, 0], [0, 0, 0], some .expected⟩⟩ : ProjSimResult) =
        projAssemble ph ∧
      ((some ⟨3, [0, 0, 0], [0, 0, 0], some .expected⟩ :
          Option OvertimeResult).isSome ↔
        0 < ph.rounds ∨ ph.tiebreak ≠ none) ∧
      (∀ ot, (some ⟨3, [0, 0, 0], [0, 0, 0], some .expected⟩ :
          Option OvertimeResult) = some ot →
        ot.rounds = ph.rounds ∧ ot.tiebreakApplied = ph.tiebreak) :=
  C7_overtime_presence zeroOps ⟨0, 0, 1, 0⟩ ⟨0, 0, 1, 0⟩ {} (fun _ => 1/2) 10
    ⟨1, 0, ⟨0, 0, 0, 0, 0, [0, 0, 0]⟩, ⟨0, 0, 0, 0, 0, [0, 0, 0]⟩,
      some ⟨3, [0, 0, 0], [0, 0, 0], some .expected⟩⟩ 16
    (by with_unfolding_all decide)

end FootballSim
